import Mathlib

/-!
Shallow embedding of the event-driven pairs mean-reversion backtest
(`trading_mean_reverting_equity_pairs.py`): the `IntradayOLSMRStrategy`
signal state machine and the `Backtest` driver loop.

Numeric values flowing through the strategy are Python floats; the
computations the verified claims depend on are exact (comparisons,
means, variances over window values), so prices and thresholds are
modelled as rationals.  The one genuinely floating-point phenomenon the
code relies on is that numpy division of a zero spread deviation by a
zero standard deviation yields NaN rather than raising, and every
ordered comparison against NaN is false; `FVal` models a float as
either NaN or an exact value.
-/

namespace PairsBacktest

/-- A Python/numpy float as the strategy observes it: either NaN (the
result of `0.0/0.0` in the z-score computation on a degenerate window)
or an exact numeric value. -/
inductive FVal where
  | nan : FVal
  | val : ℚ → FVal
deriving DecidableEq

/-- Float `<=`: any comparison involving NaN is false, as in IEEE. -/
def fle : FVal → FVal → Bool
  | FVal.val a, FVal.val b => decide (a ≤ b)
  | _, _ => false

/-- Float `>=`: any comparison involving NaN is false, as in IEEE. -/
def fge : FVal → FVal → Bool
  | FVal.val a, FVal.val b => decide (b ≤ a)
  | _, _ => false

/-- Float `abs`; `abs(nan)` is NaN. -/
def fabs : FVal → FVal
  | FVal.nan => FVal.nan
  | FVal.val a => FVal.val |a|

/-- Float negation; `-nan` is NaN. -/
def fneg : FVal → FVal
  | FVal.nan => FVal.nan
  | FVal.val a => FVal.val (-a)

/-- `SignalEvent(strategy_id, symbol, datetime, signal_type, strength)`
from `event.py`, as constructed by the strategy.  The datetime is the
single `self.datetime` fixed at strategy construction, modelled as an
opaque natural number. -/
structure SignalEvent where
  strategy_id : ℕ
  symbol : String
  dt : ℕ
  signal_type : String
  strength : FVal
deriving DecidableEq

/-- The strategy's configuration, fixed at `__init__`: the hard-coded
pair `('AAPL', 'MSFT')`, the construction-time `self.datetime`, and the
parameters `ols_window`, `zscore_low`, `zscore_high` (defaults 100,
0.5, 3.0). -/
structure StrategyParams where
  pair0 : String
  pair1 : String
  dt : ℕ
  ols_window : ℕ
  zscore_low : ℚ
  zscore_high : ℚ
deriving DecidableEq

/-- The rational 1/2, given in reduced form so that comparisons against
it evaluate by kernel reduction. -/
def qhalf : ℚ := Rat.mk' 1 2

/-- The constructor defaults: `ols_window=100, zscore_low=0.5,
zscore_high=3.0`, pair `('AAPL', 'MSFT')`. -/
def defaultParams : StrategyParams :=
  { pair0 := ("AAPL"), pair1 := ("MSFT"), dt := 0,
    ols_window := 100, zscore_low := qhalf, zscore_high := 3 }

/-- The strategy's mutable state: `self.hedge_ratio` (first assigned
inside `calculate_signals_for_pairs`, before any call of
`calculate_xy_signals`), `self.long_market`, `self.short_market`.
The field modelling `self.hedge_ratio` carries the `_fv` suffix. -/
structure StrategyState where
  hedge_ratio_fv : FVal
  long_market : Bool
  short_market : Bool
deriving DecidableEq

/-- `SignalEvent(1, p0, dt, 'LONG', 1.0)` of the enter-long branch. -/
def ySigEnterLong (p : StrategyParams) : SignalEvent :=
  { strategy_id := 1, symbol := p.pair0, dt := p.dt,
    signal_type := ("LONG"), strength := FVal.val 1 }

/-- `SignalEvent(1, p1, dt, 'SHORT', hr)` of the enter-long branch. -/
def xSigEnterLong (p : StrategyParams) (hr : FVal) : SignalEvent :=
  { strategy_id := 1, symbol := p.pair1, dt := p.dt,
    signal_type := ("SHORT"), strength := hr }

/-- `SignalEvent(1, p0, dt, 'SHORT', 1.0)` of the enter-short branch. -/
def ySigEnterShort (p : StrategyParams) : SignalEvent :=
  { strategy_id := 1, symbol := p.pair0, dt := p.dt,
    signal_type := ("SHORT"), strength := FVal.val 1 }

/-- `SignalEvent(1, p1, dt, 'LONG', hr)` of the enter-short branch. -/
def xSigEnterShort (p : StrategyParams) (hr : FVal) : SignalEvent :=
  { strategy_id := 1, symbol := p.pair1, dt := p.dt,
    signal_type := ("LONG"), strength := hr }

/-- `SignalEvent(1, p0, dt, 'EXIT', 1.0)` of both exit branches. -/
def ySigExit (p : StrategyParams) : SignalEvent :=
  { strategy_id := 1, symbol := p.pair0, dt := p.dt,
    signal_type := ("EXIT"), strength := FVal.val 1 }

/-- `SignalEvent(1, p1, dt, 'EXIT', 1.0)` of both exit branches. -/
def xSigExit (p : StrategyParams) : SignalEvent :=
  { strategy_id := 1, symbol := p.pair1, dt := p.dt,
    signal_type := ("EXIT"), strength := FVal.val 1 }

/-- `IntradayOLSMRStrategy.calculate_xy_signals(zscore_last)`, lines
47-90 of the source: four independent `if` statements evaluated in
order, each one mutating a position flag and overwriting the pending
`y_signal`/`x_signal` variables; `hr = abs(self.hedge_ratio)` is read
once at the top.  Returns the mutated state together with the final
`(y_signal, x_signal)` pair. -/
def calculate_xy_signals (p : StrategyParams) (st : StrategyState) (zscore_last : FVal) :
    StrategyState × Option SignalEvent × Option SignalEvent :=
  let hr := fabs st.hedge_ratio_fv
  -- if zscore_last <= -self.zscore_high and not self.long_market
  let c1 := fle zscore_last (fneg (FVal.val p.zscore_high)) && !st.long_market
  let st1 := if c1 then { st with long_market := true } else st
  let yx1 : Option SignalEvent × Option SignalEvent :=
    if c1 then (some (ySigEnterLong p), some (xSigEnterLong p hr)) else (none, none)
  -- if abs(zscore_last) <= self.zscore_low and self.long_market
  let c2 := fle (fabs zscore_last) (FVal.val p.zscore_low) && st1.long_market
  let st2 := if c2 then { st1 with long_market := false } else st1
  let yx2 := if c2 then (some (ySigExit p), some (xSigExit p)) else yx1
  -- if zscore_last >= self.zscore_high and not self.short_market
  let c3 := fge zscore_last (FVal.val p.zscore_high) && !st2.short_market
  let st3 := if c3 then { st2 with short_market := true } else st2
  let yx3 := if c3 then (some (ySigEnterShort p), some (xSigEnterShort p hr)) else yx2
  -- if abs(zscore_last) <= self.zscore_low and self.short_market
  let c4 := fle (fabs zscore_last) (FVal.val p.zscore_low) && st3.short_market
  let st4 := if c4 then { st3 with short_market := false } else st3
  let yx4 := if c4 then (some (ySigExit p), some (xSigExit p)) else yx3
  (st4, yx4)

/-- Given for the refinement claim only, following the spec's words
rather than the source: the variant of `calculate_xy_signals` in which
the four guarded branches form a mutually exclusive `else-if` ladder,
so at most one branch executes and every guard reads the
entry-of-call flag values. -/
def calculate_xy_signals_elseif (p : StrategyParams) (st : StrategyState)
    (zscore_last : FVal) :
    StrategyState × Option SignalEvent × Option SignalEvent :=
  let hr := fabs st.hedge_ratio_fv
  if fle zscore_last (fneg (FVal.val p.zscore_high)) && !st.long_market then
    ({ st with long_market := true },
     some (ySigEnterLong p), some (xSigEnterLong p hr))
  else if fle (fabs zscore_last) (FVal.val p.zscore_low) && st.long_market then
    ({ st with long_market := false }, some (ySigExit p), some (xSigExit p))
  else if fge zscore_last (FVal.val p.zscore_high) && !st.short_market then
    ({ st with short_market := true },
     some (ySigEnterShort p), some (xSigEnterShort p hr))
  else if fle (fabs zscore_last) (FVal.val p.zscore_low) && st.short_market then
    ({ st with short_market := false }, some (ySigExit p), some (xSigExit p))
  else (st, none, none)

/-- Instrumentation of `calculate_xy_signals`: the list of indices (0
to 3) of the `if` branches whose guards evaluate to true during the
call, in evaluation order.  Each guard is evaluated on exactly the
flag values the source sees at that point: branch 1 reads
`long_market` as possibly just set by branch 0, branch 3 reads
`short_market` as possibly just set by branch 2. -/
def xyMatched (p : StrategyParams) (st : StrategyState) (zscore_last : FVal) :
    List ℕ :=
  let c1 := fle zscore_last (fneg (FVal.val p.zscore_high)) && !st.long_market
  let lm1 := if c1 then true else st.long_market
  let c2 := fle (fabs zscore_last) (FVal.val p.zscore_low) && lm1
  let c3 := fge zscore_last (FVal.val p.zscore_high) && !st.short_market
  let sm3 := if c3 then true else st.short_market
  let c4 := fle (fabs zscore_last) (FVal.val p.zscore_low) && sm3
  (if c1 then [0] else []) ++ (if c2 then [1] else []) ++
    (if c3 then [2] else []) ++ (if c4 then [3] else [])

/-- The `(y_signal, x_signal)` pair each of the four branches writes;
`hr` is `abs(self.hedge_ratio)`, read once at the top of the call. -/
def branchSignals (p : StrategyParams) (hr : FVal) : ℕ → SignalEvent × SignalEvent
  | 0 => (ySigEnterLong p, xSigEnterLong p hr)
  | 1 => (ySigExit p, xSigExit p)
  | 2 => (ySigEnterShort p, xSigEnterShort p hr)
  | _ => (ySigExit p, xSigExit p)

/-- Mean of a list of values, `numpy.mean`: sum divided by length. -/
def mean (l : List ℚ) : ℚ := l.sum / l.length

/-- Population variance of a list of values (`numpy.std` squared,
`ddof = 0`): mean of squared deviations from the mean. -/
def variance (l : List ℚ) : ℚ :=
  (l.map (fun a => (a - mean l) ^ 2)).sum / l.length

/-- The slope coefficient of `sm.OLS(y, x).fit().params[0]`: ordinary
least squares of `y` on `x` without intercept, whose closed form is
`sum (x*y) / sum (x^2)`. -/
def olsSlope (y x : List ℚ) : ℚ :=
  (List.zipWith (fun a b => a * b) x y).sum / (x.map (fun a => a ^ 2)).sum

/-- `spread = y - self.hedge_ratio * x`, elementwise over the two
windows. -/
def spreadOf (hr : ℚ) (y x : List ℚ) : List ℚ :=
  List.zipWith (fun a b => a - hr * b) y x

/-- `((spread - spread.mean()) / spread.std())[-1]`.  The standard
deviation is the square root of `variance spread`; over exact
arithmetic it is zero iff the variance is zero, and numpy division of
the (then zero) numerator by the zero standard deviation yields NaN.
A nonzero standard deviation is irrational in general, so it is
supplied through the parameter `sq`, standing for the square-root
function applied to the variance; no verified claim depends on the
numeric value of a non-degenerate z-score. -/
def zscoreLast (sq : ℚ → ℚ) (spread : List ℚ) : FVal :=
  if variance spread = 0 then FVal.nan
  else FVal.val ((spread.getLast! - mean spread) / sq (variance spread))

/-- The final lines 118-120 of `calculate_signals_for_pairs`: if both
`y_signal` and `x_signal` are not `None`, put both on the event queue
(y first). -/
def putPair :
    StrategyState × Option SignalEvent × Option SignalEvent →
    StrategyState × List SignalEvent
  | (st, some ys, some xs) => (st, [ys, xs])
  | (st, _, _) => (st, [])

/-- `IntradayOLSMRStrategy.calculate_signals_for_pairs`, lines 92-120:
fetch the last `ols_window` closes of both legs from the bar handler
(`getBars symbol N` models `self.bars.get_latest_bars_values(symbol,
"close", N=N)`, `none` modelling a `None` return); if both are present
and long enough, fit the hedge ratio, compute the z-score of the
spread, run `calculate_xy_signals`, and if both returned signals are
set put them (y first) on the event queue.  Returns the new state and
the list of signals put on the queue. -/
def calculate_signals_for_pairs (sq : ℚ → ℚ) (p : StrategyParams)
    (getBars : String → ℕ → Option (List ℚ)) (st : StrategyState) :
    StrategyState × List SignalEvent :=
  match getBars p.pair0 p.ols_window, getBars p.pair1 p.ols_window with
  | some y, some x =>
    if p.ols_window ≤ y.length ∧ p.ols_window ≤ x.length then
      let hr := olsSlope y x
      let st' := { st with hedge_ratio_fv := FVal.val hr }
      let spread := spreadOf hr y x
      let z := zscoreLast sq spread
      putPair (calculate_xy_signals p st' z)
    else (st, [])
  | _, _ => (st, [])

/-- `IntradayOLSMRStrategy.calculate_signals(event)`, lines 122-127:
dispatch to `calculate_signals_for_pairs` only when the event's type
is MARKET. -/
def calculate_signals (sq : ℚ → ℚ) (p : StrategyParams)
    (getBars : String → ℕ → Option (List ℚ)) (st : StrategyState)
    (etype : String) : StrategyState × List SignalEvent :=
  if etype = ("MARKET") then calculate_signals_for_pairs sq p getBars st
  else (st, [])

/-- A lifetime of a strategy instance: one call of
`calculate_signals_for_pairs` per element of `feeds` (the bar handler
view at each tick), threading the state and concatenating the emitted
signals. -/
def runStrategy (sq : ℚ → ℚ) (p : StrategyParams) :
    List (String → ℕ → Option (List ℚ)) → StrategyState →
    StrategyState × List SignalEvent
  | [], st => (st, [])
  | g :: rest, st =>
    let r := calculate_signals_for_pairs sq p g st
    let r' := runStrategy sq p rest r.1
    (r'.1, r.2 ++ r'.2)

/-- Number of signals in a list carrying a given symbol. -/
def countSym (s : String) (l : List SignalEvent) : ℕ :=
  (l.filter (fun e => e.symbol = s)).length

/-! ## The `Backtest` driver (`backtest.py` section, lines 150-264)

The driver is generic over the injected data handler, strategy,
portfolio and execution handler classes; its own logic — the loop
structure of `_run_backtest` and the typed dispatch on `event.type` —
is modelled here, with the consumers' enqueueing behaviour supplied as
parameters.  An event is examined by the driver only through its
`type` string; the `tag` field stands for the rest of the payload (for
MARKET events, the index of the bar whose `update_bars` call enqueued
it). -/

/-- An event as the driver sees it: a type string plus a payload tag. -/
structure DEvent where
  type : String
  tag : ℕ
deriving DecidableEq

/-- One observable action of `_run_backtest`: the data handler
advancing to bar `n` (`update_bars`), or `events.get` returning an
event which is then put through the dispatch chain. -/
inductive Act where
  | readBar (n : ℕ)
  | popped (e : DEvent)
deriving DecidableEq

/-- The enqueueing behaviour of the injected consumers: the events
`strategy.calculate_signals`, `portfolio.update_signal` and
`execution_handler.execute_order` put on the queue when handed an
event.  `portfolio.update_timeindex` and `portfolio.update_fill`
enqueue nothing. -/
structure Handlers where
  strategyCalc : DEvent → List DEvent
  portfolioSignal : DEvent → List DEvent
  execOrder : DEvent → List DEvent

/-- The driver state observable in `_run_backtest`: the FIFO event
queue, the three counters, and the trace of actions so far. -/
structure BTState where
  queue : List DEvent
  signals : ℕ
  orders : ℕ
  fills : ℕ
  trace : List Act
deriving DecidableEq

/-- The driver state at the top of `_run_backtest`. -/
def initBT : BTState :=
  { queue := [], signals := 0, orders := 0, fills := 0, trace := [] }

/-- The first `while True` loop of `_run_backtest` (lines 212-219) as
the source indents it: repeatedly call `update_bars` while
`continue_backtest` holds, then break.  Each bar advance enqueues one
MARKET event tagged with the bar index. -/
def runBarsLoop : List ℕ → BTState → BTState
  | [], s => s
  | n :: rest, s =>
    runBarsLoop rest
      { s with queue := s.queue ++ [{ type := ("MARKET"), tag := n }],
               trace := s.trace ++ [Act.readBar n] }

/-- The dispatch chain of `_run_backtest` (lines 227-237): an
`if`/`elif` ladder on `event.type` with no `else` branch, so an event
of any other type falls through with no effect. -/
def dispatch (h : Handlers) (e : DEvent) (s : BTState) : BTState :=
  if e.type = ("MARKET") then
    { s with queue := s.queue ++ h.strategyCalc e }
  else if e.type = ("SIGNAL") then
    { s with signals := s.signals + 1, queue := s.queue ++ h.portfolioSignal e }
  else if e.type = ("ORDER") then
    { s with orders := s.orders + 1, queue := s.queue ++ h.execOrder e }
  else if e.type = ("FILL") then
    { s with fills := s.fills + 1 }
  else s

/-- The second `while True` loop of `_run_backtest` (lines 221-237):
pop events with `events.get(False)` until `queue.Empty` breaks the
loop, dispatching each popped event.  Dispatching can enqueue further
events, so the loop is given fuel; every claim about it is settled at
a concrete fuel large enough for the run at hand. -/
def drainLoop (h : Handlers) : ℕ → BTState → BTState
  | 0, s => s
  | fuel + 1, s =>
    match s.queue with
    | [] => s
    | e :: rest =>
      drainLoop h fuel
        (dispatch h e { s with queue := rest, trace := s.trace ++ [Act.popped e] })

/-- `_run_backtest` with the loop structure exactly as indented in the
source: the bar loop runs to data exhaustion first, and only then does
the drain loop run, once. -/
def run_backtest_literal (h : Handlers) (fuel : ℕ) (feed : List ℕ) : BTState :=
  drainLoop h fuel (runBarsLoop feed initBT)

/-- Consumers that enqueue nothing, for concrete driver runs. -/
def noopHandlers : Handlers :=
  { strategyCalc := fun _ => [], portfolioSignal := fun _ => [],
    execOrder := fun _ => [] }

/-- Modelled from the spec: the loop structure `_run_backtest` is
documented to have (section 4.5: drain the queue completely before
advancing the feed again), with the drain loop nested inside the bar
loop as the source's own `# Handle the events` comment placement
intends.  Used only to exhibit the trace the claim describes, next to
the trace the source's literal indentation produces. -/
def run_backtest_nested (h : Handlers) (fuel : ℕ) : List ℕ → BTState → BTState
  | [], s => s
  | n :: rest, s =>
    run_backtest_nested h fuel rest
      (drainLoop h fuel
        { s with queue := s.queue ++ [{ type := ("MARKET"), tag := n }],
                 trace := s.trace ++ [Act.readBar n] })


/-! ## Helper lemmas -/

/-- Sanity check: `qhalf` is the rational one half. -/
theorem qhalf_eq : qhalf = 1 / 2 := by
  rw [qhalf, Rat.mk'_eq_divInt, Rat.divInt_eq_div]; norm_num

theorem fle_nan_left (x : FVal) : fle FVal.nan x = false := by
  cases x <;> rfl

theorem fge_nan_left (x : FVal) : fge FVal.nan x = false := by
  cases x <;> rfl

theorem fabs_nan : fabs FVal.nan = FVal.nan := rfl

/-- With a NaN z-score every guard comparison is false, so
`calculate_xy_signals` changes nothing and returns no signals. -/
theorem xy_nan (p : StrategyParams) (st : StrategyState) :
    calculate_xy_signals p st FVal.nan = (st, none, none) := by
  simp [calculate_xy_signals, fle_nan_left, fge_nan_left, fabs_nan]

/-- The returned signal pair of `calculate_xy_signals` is exactly the
pair written by the last branch whose guard held, or `(none, none)`
when no guard held. -/
theorem xy_eq_lastMatched (p : StrategyParams) (st : StrategyState) (z : FVal) :
    (calculate_xy_signals p st z).2 =
      match (xyMatched p st z).getLast? with
      | none => (none, none)
      | some b => (some (branchSignals p (fabs st.hedge_ratio_fv) b).1,
                   some (branchSignals p (fabs st.hedge_ratio_fv) b).2) := by
  rcases st with ⟨hr, l, s⟩
  cases h1 : fle z (fneg (FVal.val p.zscore_high)) <;>
  cases h2 : fle (fabs z) (FVal.val p.zscore_low) <;>
  cases h3 : fge z (FVal.val p.zscore_high) <;>
  cases l <;> cases s <;>
  simp [calculate_xy_signals, xyMatched, h1, h2, h3, branchSignals]

/-- Every branch writes a y-leg signal on `pair0` and an x-leg signal
on `pair1`. -/
theorem branchSignals_symbols (p : StrategyParams) (hr : FVal) (b : ℕ) :
    (branchSignals p hr b).1.symbol = p.pair0 ∧
    (branchSignals p hr b).2.symbol = p.pair1 := by
  rcases b with _ | _ | _ | b <;>
  simp [branchSignals, ySigEnterLong, xSigEnterLong, ySigExit, xSigExit,
    ySigEnterShort, xSigEnterShort]

/-- `calculate_xy_signals` either returns no signal at all or one
y-leg signal together with one x-leg signal. -/
theorem xy_shape (p : StrategyParams) (st : StrategyState) (z : FVal) :
    (calculate_xy_signals p st z).2 = (none, none) ∨
    ∃ a b, (calculate_xy_signals p st z).2 = (some a, some b) ∧
      a.symbol = p.pair0 ∧ b.symbol = p.pair1 := by
  rw [xy_eq_lastMatched]
  cases h : (xyMatched p st z).getLast? with
  | none => exact Or.inl rfl
  | some b =>
    exact Or.inr ⟨_, _, rfl, (branchSignals_symbols p _ b).1,
      (branchSignals_symbols p _ b).2⟩

/-- `putPair` on a pair of absent signals puts nothing. -/
theorem putPair_none (r : StrategyState × Option SignalEvent × Option SignalEvent)
    (h : r.2 = (none, none)) : putPair r = (r.1, []) := by
  rcases r with ⟨a, ys, xs⟩
  simp only [Prod.mk.injEq] at h
  rcases h with ⟨rfl, rfl⟩
  rfl

/-- `putPair` on a pair of present signals puts exactly the two. -/
theorem putPair_some (r : StrategyState × Option SignalEvent × Option SignalEvent)
    (a b : SignalEvent) (h : r.2 = (some a, some b)) : putPair r = (r.1, [a, b]) := by
  rcases r with ⟨s, ys, xs⟩
  simp only [Prod.mk.injEq] at h
  rcases h with ⟨rfl, rfl⟩
  rfl

/-- Per call, `calculate_signals_for_pairs` puts either nothing or
exactly a y-leg/x-leg pair on the queue. -/
theorem pairs_shape (sq : ℚ → ℚ) (p : StrategyParams)
    (getBars : String → ℕ → Option (List ℚ)) (st : StrategyState) :
    (calculate_signals_for_pairs sq p getBars st).2 = [] ∨
    ∃ a b, (calculate_signals_for_pairs sq p getBars st).2 = [a, b] ∧
      a.symbol = p.pair0 ∧ b.symbol = p.pair1 := by
  unfold calculate_signals_for_pairs
  cases hy : getBars p.pair0 p.ols_window with
  | none => exact Or.inl rfl
  | some y =>
    cases hx : getBars p.pair1 p.ols_window with
    | none => exact Or.inl rfl
    | some x =>
      dsimp only
      by_cases hlen : p.ols_window ≤ y.length ∧ p.ols_window ≤ x.length
      · rw [if_pos hlen]
        rcases xy_shape p { st with hedge_ratio_fv := FVal.val (olsSlope y x) }
            (zscoreLast sq (spreadOf (olsSlope y x) y x)) with h | ⟨a, b, h, ha, hb⟩
        · rw [putPair_none _ h]
          exact Or.inl rfl
        · rw [putPair_some _ a b h]
          exact Or.inr ⟨a, b, rfl, ha, hb⟩
      · rw [if_neg hlen]
        exact Or.inl rfl

theorem countSym_append (s : String) (l1 l2 : List SignalEvent) :
    countSym s (l1 ++ l2) = countSym s l1 + countSym s l2 := by
  simp [countSym, List.filter_append]

/-- Per call, equally many y-leg and x-leg signals go on the queue. -/
theorem pairs_count (sq : ℚ → ℚ) (p : StrategyParams)
    (getBars : String → ℕ → Option (List ℚ)) (st : StrategyState) :
    countSym p.pair0 (calculate_signals_for_pairs sq p getBars st).2 =
    countSym p.pair1 (calculate_signals_for_pairs sq p getBars st).2 := by
  rcases pairs_shape sq p getBars st with h | ⟨a, b, h, ha, hb⟩
  · rw [h]; rfl
  · rw [h]
    by_cases hpp : p.pair0 = p.pair1
    · simp [countSym, ha, hb, hpp]
    · simp [countSym, ha, hb, hpp, Ne.symm hpp]

/-- Over any sequence of ticks, equally many y-leg and x-leg signals
are emitted. -/
theorem runStrategy_count (sq : ℚ → ℚ) (p : StrategyParams)
    (feeds : List (String → ℕ → Option (List ℚ))) (st : StrategyState) :
    countSym p.pair0 (runStrategy sq p feeds st).2 =
    countSym p.pair1 (runStrategy sq p feeds st).2 := by
  induction feeds generalizing st with
  | nil => rfl
  | cons g rest ih =>
    simp only [runStrategy, countSym_append]
    rw [pairs_count, ih]

/-! ## Claim theorems -/

/-- Claim C3: the four guards of `calculate_xy_signals` are evaluated
in order on every call, each matching branch overwrites the pending
y/x signal variables, and the returned pair is the one written by the
last matching branch (no branch matching gives `(none, none)`). -/
theorem last_matching_branch_wins (p : StrategyParams) (st : StrategyState) (z : FVal) :
    (calculate_xy_signals p st z).2 =
      match (xyMatched p st z).getLast? with
      | none => (none, none)
      | some b => (some (branchSignals p (fabs st.hedge_ratio_fv) b).1,
                   some (branchSignals p (fabs st.hedge_ratio_fv) b).2) :=
  xy_eq_lastMatched p st z

/-- Claim C4: signals are only emitted in matched pairs — each call of
`calculate_signals_for_pairs` enqueues nothing or exactly one y-leg
and one x-leg signal together, and over any lifetime of calls the two
legs' emission counts are equal. -/
theorem signals_emitted_in_pairs :
    (∀ (sq : ℚ → ℚ) (p : StrategyParams)
      (getBars : String → ℕ → Option (List ℚ)) (st : StrategyState),
      (calculate_signals_for_pairs sq p getBars st).2 = [] ∨
      ∃ a b, (calculate_signals_for_pairs sq p getBars st).2 = [a, b] ∧
        a.symbol = p.pair0 ∧ b.symbol = p.pair1) ∧
    (∀ (sq : ℚ → ℚ) (p : StrategyParams)
      (feeds : List (String → ℕ → Option (List ℚ))) (st : StrategyState),
      countSym p.pair0 (runStrategy sq p feeds st).2 =
      countSym p.pair1 (runStrategy sq p feeds st).2) :=
  ⟨pairs_shape, runStrategy_count⟩

/-- Claim C5: if either leg's returned close-price window is shorter
than `ols_window`, `calculate_signals_for_pairs` is a no-op — it
enqueues nothing and leaves the whole strategy state unchanged. -/
theorem warmup_noop (sq : ℚ → ℚ) (p : StrategyParams)
    (getBars : String → ℕ → Option (List ℚ)) (st : StrategyState)
    (y x : List ℚ)
    (hy : getBars p.pair0 p.ols_window = some y)
    (hx : getBars p.pair1 p.ols_window = some x)
    (hshort : y.length < p.ols_window ∨ x.length < p.ols_window) :
    calculate_signals_for_pairs sq p getBars st = (st, []) := by
  unfold calculate_signals_for_pairs
  rw [hy, hx]
  dsimp only
  rw [if_neg]
  rintro ⟨hl1, hl2⟩
  rcases hshort with hs1 | hs1 <;> omega

theorem warmup_noop_witness :
    calculate_signals_for_pairs id defaultParams (fun _ _ => some [])
      { hedge_ratio_fv := FVal.val 0, long_market := false, short_market := false } =
    ({ hedge_ratio_fv := FVal.val 0, long_market := false, short_market := false }, []) :=
  warmup_noop id defaultParams (fun _ _ => some []) _ [] [] rfl rfl
    (Or.inl (by decide))

/-- Claim C10: for every event whose type is not MARKET,
`calculate_signals` is a no-op: whatever the bar handler holds, it
emits nothing and leaves the strategy state unchanged. -/
theorem non_market_event_noop (sq : ℚ → ℚ) (p : StrategyParams)
    (getBars : String → ℕ → Option (List ℚ)) (st : StrategyState)
    (etype : String) (h : etype ≠ ("MARKET")) :
    calculate_signals sq p getBars st etype = (st, []) := by
  simp [calculate_signals, h]

theorem non_market_event_noop_witness :
    calculate_signals id defaultParams (fun _ _ => some [1, 2, 3])
      { hedge_ratio_fv := FVal.val 0, long_market := false, short_market := false }
      ("FILL") =
    ({ hedge_ratio_fv := FVal.val 0, long_market := false, short_market := false }, []) :=
  non_market_event_noop id defaultParams (fun _ _ => some [1, 2, 3]) _ ("FILL")
    (by decide)

/-- Claim C8: on a degenerate window (zero spread variance) the
z-score is NaN, every guard comparison is false, and the tick is a
no-op: nothing is enqueued and the position flags are unchanged; no
error escapes to the caller. -/
theorem degenerate_window_noop (sq : ℚ → ℚ) (p : StrategyParams)
    (getBars : String → ℕ → Option (List ℚ)) (st : StrategyState)
    (y x : List ℚ)
    (hy : getBars p.pair0 p.ols_window = some y)
    (hx : getBars p.pair1 p.ols_window = some x)
    (hly : p.ols_window ≤ y.length) (hlx : p.ols_window ≤ x.length)
    (hvar : variance (spreadOf (olsSlope y x) y x) = 0) :
    (calculate_signals_for_pairs sq p getBars st).2 = [] ∧
    (calculate_signals_for_pairs sq p getBars st).1.long_market = st.long_market ∧
    (calculate_signals_for_pairs sq p getBars st).1.short_market = st.short_market := by
  have hz : zscoreLast sq (spreadOf (olsSlope y x) y x) = FVal.nan := by
    simp [zscoreLast, hvar]
  have hres : calculate_signals_for_pairs sq p getBars st =
      ({ st with hedge_ratio_fv := FVal.val (olsSlope y x) }, []) := by
    unfold calculate_signals_for_pairs
    rw [hy, hx]
    dsimp only
    rw [if_pos ⟨hly, hlx⟩, hz, xy_nan]
    rfl
  rw [hres]
  exact ⟨rfl, rfl, rfl⟩

theorem degenerate_window_noop_witness :
    (calculate_signals_for_pairs id
      { pair0 := ("AAPL"), pair1 := ("MSFT"), dt := 0, ols_window := 2,
        zscore_low := qhalf, zscore_high := 3 }
      (fun _ _ => some [1, 1])
      { hedge_ratio_fv := FVal.val 0, long_market := false, short_market := false }).2
      = [] ∧
    (calculate_signals_for_pairs id
      { pair0 := ("AAPL"), pair1 := ("MSFT"), dt := 0, ols_window := 2,
        zscore_low := qhalf, zscore_high := 3 }
      (fun _ _ => some [1, 1])
      { hedge_ratio_fv := FVal.val 0, long_market := false, short_market := false }).1.long_market
      = false ∧
    (calculate_signals_for_pairs id
      { pair0 := ("AAPL"), pair1 := ("MSFT"), dt := 0, ols_window := 2,
        zscore_low := qhalf, zscore_high := 3 }
      (fun _ _ => some [1, 1])
      { hedge_ratio_fv := FVal.val 0, long_market := false, short_market := false }).1.short_market
      = false :=
  degenerate_window_noop id _ (fun _ _ => some [1, 1]) _ [1, 1] [1, 1] rfl rfl
    (by decide) (by decide)
    (by norm_num [variance, spreadOf, olsSlope, mean])

/-- Claim C1 (counterexample): with the default thresholds, from the
flat initial state a z-score of -4 enters long, and a following
z-score of +4 (which skips the exit band) enters short without
exiting, leaving `long_market` and `short_market` simultaneously
true. -/
theorem long_short_both_true_cex :
    (calculate_xy_signals defaultParams
        { hedge_ratio_fv := FVal.val 1, long_market := false, short_market := false }
        (FVal.val (-4))).1 =
      { hedge_ratio_fv := FVal.val 1, long_market := true, short_market := false } ∧
    (calculate_xy_signals defaultParams
        { hedge_ratio_fv := FVal.val 1, long_market := true, short_market := false }
        (FVal.val 4)).1 =
      { hedge_ratio_fv := FVal.val 1, long_market := true, short_market := true } := by
  decide

/-- Claim C1 (amended): a single call of `calculate_xy_signals` from
the flat state leaves at most one position flag set whenever
`zscore_high` is positive; the mutual-exclusion invariant holds after
one step from flat but not along longer input sequences. -/
theorem single_call_from_flat_exclusive (p : StrategyParams) (st : StrategyState)
    (z : FVal) (hhigh : 0 < p.zscore_high)
    (hl : st.long_market = false) (hs : st.short_market = false) :
    ¬((calculate_xy_signals p st z).1.long_market = true ∧
      (calculate_xy_signals p st z).1.short_market = true) := by
  cases z with
  | nan =>
    rw [xy_nan]
    rintro ⟨h1, h2⟩
    rw [hl] at h1
    exact Bool.false_ne_true h1
  | val q =>
    cases h1 : fle (FVal.val q) (fneg (FVal.val p.zscore_high)) <;>
    cases h2 : fle (fabs (FVal.val q)) (FVal.val p.zscore_low) <;>
    cases h3 : fge (FVal.val q) (FVal.val p.zscore_high) <;>
    simp [calculate_xy_signals, h1, h2, h3, hl, hs]
    simp only [fle, fge, fneg, decide_eq_true_eq] at h1 h3
    linarith

theorem single_call_from_flat_exclusive_witness :
    ¬((calculate_xy_signals defaultParams
        { hedge_ratio_fv := FVal.val 1, long_market := false, short_market := false }
        (FVal.val 0)).1.long_market = true ∧
      (calculate_xy_signals defaultParams
        { hedge_ratio_fv := FVal.val 1, long_market := false, short_market := false }
        (FVal.val 0)).1.short_market = true) :=
  single_call_from_flat_exclusive defaultParams _ _ (by decide) rfl rfl

/-- Claim C2: with the loop structure as literally indented in the
source, a two-bar feed is read to exhaustion before any event is
dispatched — the MARKET event of bar 1 is popped only after bar 2 has
been read — whereas the intended nested structure drains each bar's
events before the next bar is read. -/
theorem literal_loop_defers_dispatch_past_bars :
    (run_backtest_literal noopHandlers 10 [1, 2]).trace =
      [Act.readBar 1, Act.readBar 2,
       Act.popped { type := ("MARKET"), tag := 1 },
       Act.popped { type := ("MARKET"), tag := 2 }] ∧
    (run_backtest_nested noopHandlers 10 [1, 2] initBT).trace =
      [Act.readBar 1, Act.popped { type := ("MARKET"), tag := 1 },
       Act.readBar 2, Act.popped { type := ("MARKET"), tag := 2 }] := by
  decide

/-- Claim C6 (counterexample): the dispatch ladder has no `else`
branch, so an event of unknown type BOGUS is silently skipped — the
drain loop pops it, changes nothing, continues with the next event and
terminates normally instead of aborting. -/
theorem unknown_event_run_continues_cex :
    drainLoop noopHandlers 10
      { queue := [{ type := ("BOGUS"), tag := 0 }, { type := ("MARKET"), tag := 1 }],
        signals := 0, orders := 0, fills := 0, trace := [] } =
      { queue := [], signals := 0, orders := 0, fills := 0,
        trace := [Act.popped { type := ("BOGUS"), tag := 0 },
                  Act.popped { type := ("MARKET"), tag := 1 }] } := by
  decide

/-- Claim C6 (amended): an event whose type is none of MARKET, SIGNAL,
ORDER, FILL is silently dropped: dispatching it is the identity on the
driver state, and the drain loop records the pop and continues with
the rest of the queue. -/
theorem unknown_event_silently_dropped (h : Handlers) (e : DEvent) (s : BTState)
    (q : List DEvent) (fuel : ℕ)
    (h1 : e.type ≠ ("MARKET")) (h2 : e.type ≠ ("SIGNAL"))
    (h3 : e.type ≠ ("ORDER")) (h4 : e.type ≠ ("FILL")) :
    dispatch h e s = s ∧
    drainLoop h (fuel + 1) { s with queue := e :: q } =
      drainLoop h fuel { s with queue := q, trace := s.trace ++ [Act.popped e] } := by
  have hd : ∀ s' : BTState, dispatch h e s' = s' := by
    intro s'
    simp [dispatch, h1, h2, h3, h4]
  refine ⟨hd s, ?_⟩
  simp [drainLoop, hd]

theorem unknown_event_silently_dropped_witness :
    dispatch noopHandlers { type := ("BOGUS"), tag := 0 } initBT = initBT ∧
    drainLoop noopHandlers 1
      { initBT with queue := [{ type := ("BOGUS"), tag := 0 }] } =
    drainLoop noopHandlers 0
      { initBT with
        queue := ([] : List DEvent),
        trace := initBT.trace ++ [Act.popped { type := ("BOGUS"), tag := 0 }] } :=
  unknown_event_silently_dropped noopHandlers { type := ("BOGUS"), tag := 0 }
    initBT [] 0 (by decide) (by decide) (by decide) (by decide)

/-- Claim C7: the entry comparisons are inclusive — with `long_market`
false a z-score exactly equal to `-zscore_high` makes the enter-long
guard (branch 0) fire, and with `short_market` false a z-score exactly
equal to `zscore_high` makes the enter-short guard (branch 2) fire. -/
theorem boundary_entries_inclusive (p : StrategyParams) (st st' : StrategyState)
    (hl : st.long_market = false) (hs : st'.short_market = false) :
    0 ∈ xyMatched p st (FVal.val (-p.zscore_high)) ∧
    2 ∈ xyMatched p st' (FVal.val p.zscore_high) := by
  constructor
  · have hc1 : fle (FVal.val (-p.zscore_high)) (fneg (FVal.val p.zscore_high)) = true := by
      simp [fle, fneg]
    simp [xyMatched, hc1, hl]
  · have hc3 : fge (FVal.val p.zscore_high) (FVal.val p.zscore_high) = true := by
      simp [fge]
    simp [xyMatched, hc3, hs, List.mem_append]

theorem boundary_entries_inclusive_witness :
    0 ∈ xyMatched defaultParams
      { hedge_ratio_fv := FVal.val 1, long_market := false, short_market := false }
      (FVal.val (-defaultParams.zscore_high)) ∧
    2 ∈ xyMatched defaultParams
      { hedge_ratio_fv := FVal.val 1, long_market := false, short_market := false }
      (FVal.val defaultParams.zscore_high) :=
  boundary_entries_inclusive defaultParams _ _ rfl rfl

/-- Claim C9 (counterexample): from the both-flags-true state (which
is reachable, see the entry/entry counterexample), with the default
thresholds and z-score 0 the independent-`if` source clears both
flags while the mutually exclusive `else-if` variant clears only
`long_market`, so the two versions disagree. -/
theorem elseif_equiv_cex :
    calculate_xy_signals defaultParams
        { hedge_ratio_fv := FVal.val 1, long_market := true, short_market := true }
        (FVal.val 0) ≠
      calculate_xy_signals_elseif defaultParams
        { hedge_ratio_fv := FVal.val 1, long_market := true, short_market := true }
        (FVal.val 0) := by
  decide

/-- Claim C9 (amended): under `0 ≤ zscore_low < zscore_high` the three
z-score regions are pairwise exclusive, and on every state in which
the two position flags are not both true the independent-`if` source
agrees exactly (same returned signals, same flag updates) with the
mutually exclusive `else-if` variant; from the both-true state the two
differ. -/
theorem elseif_equiv_on_exclusive_states (p : StrategyParams)
    (h0 : 0 ≤ p.zscore_low) (hlh : p.zscore_low < p.zscore_high) :
    (∀ q : ℚ,
      ¬(q ≤ -p.zscore_high ∧ |q| ≤ p.zscore_low) ∧
      ¬(q ≤ -p.zscore_high ∧ p.zscore_high ≤ q) ∧
      ¬(|q| ≤ p.zscore_low ∧ p.zscore_high ≤ q)) ∧
    ∀ (st : StrategyState) (z : FVal),
      ¬(st.long_market = true ∧ st.short_market = true) →
      calculate_xy_signals p st z = calculate_xy_signals_elseif p st z := by
  constructor
  · intro q
    refine ⟨?_, ?_, ?_⟩ <;> rintro ⟨a, b⟩
    · rcases abs_le.mp b with ⟨b1, b2⟩
      linarith
    · linarith
    · rcases abs_le.mp a with ⟨a1, a2⟩
      linarith
  · rintro ⟨hr, l, s⟩ z hns
    cases z with
    | nan =>
      simp [calculate_xy_signals, calculate_xy_signals_elseif, fle_nan_left,
        fge_nan_left, fabs_nan]
    | val q =>
      have e1 : fle (FVal.val q) (fneg (FVal.val p.zscore_high)) =
          decide (q ≤ -p.zscore_high) := by
        simp [fle, fneg]
      have e2 : fle (fabs (FVal.val q)) (FVal.val p.zscore_low) =
          decide (|q| ≤ p.zscore_low) := by
        simp [fle, fabs]
      have e3 : fge (FVal.val q) (FVal.val p.zscore_high) =
          decide (p.zscore_high ≤ q) := by
        simp [fge]
      cases l <;> cases s
      case true.true => exact absurd ⟨rfl, rfl⟩ hns
      all_goals
        by_cases hq1 : q ≤ -p.zscore_high <;>
        by_cases hq2 : |q| ≤ p.zscore_low <;>
        by_cases hq3 : p.zscore_high ≤ q <;>
        simp [calculate_xy_signals, calculate_xy_signals_elseif, e1, e2, e3,
          hq1, hq2, hq3] <;>
        (first
          | (rcases abs_le.mp hq2 with ⟨u, v⟩; linarith)
          | linarith)

theorem elseif_equiv_on_exclusive_states_witness :
    (∀ q : ℚ,
      ¬(q ≤ -defaultParams.zscore_high ∧ |q| ≤ defaultParams.zscore_low) ∧
      ¬(q ≤ -defaultParams.zscore_high ∧ defaultParams.zscore_high ≤ q) ∧
      ¬(|q| ≤ defaultParams.zscore_low ∧ defaultParams.zscore_high ≤ q)) ∧
    ∀ (st : StrategyState) (z : FVal),
      ¬(st.long_market = true ∧ st.short_market = true) →
      calculate_xy_signals defaultParams st z =
        calculate_xy_signals_elseif defaultParams st z :=
  elseif_equiv_on_exclusive_states defaultParams (by decide) (by decide)
